import Mathlib

/-!
Shallow embedding of the chunked upload pipeline of the Vantala-Vaani
repository (upload modal: `onSubmit` and `uploadFileInChunks`).

The remote endpoint's behaviour (HTTP responses) is an oracle `Remote`;
the run of an upload is a deterministic trace of observable events
(chunk requests with their byte ranges, backoff sleeps, progress
callbacks, the finalize request with its form body, notifications).
`Math.round` on the nonnegative rationals arising here is modelled as
round-half-up over exact rational arithmetic.
-/

namespace VantalaVaani

/-- The four media types of the upload form (`UploadType` in the source). -/
inductive UploadType where
  | text
  | audio
  | video
  | image
deriving Repr, DecidableEq

/-- String sent as `media_type` in the finalize body. -/
def mediaTypeStr : UploadType → String
  | .text => "text"
  | .audio => "audio"
  | .video => "video"
  | .image => "image"

/-- `const CHUNK_SIZE = 5 * 1024 * 1024` (5 MiB). -/
def CHUNK_SIZE : Nat := 5 * 1024 * 1024

/-- `Math.ceil(file.size / CHUNK_SIZE)` as exact natural ceiling division. -/
def totalChunksOf (size : Nat) : Nat := (size + CHUNK_SIZE - 1) / CHUNK_SIZE

/-- `const start = i * CHUNK_SIZE`. -/
def chunkStart (i : Nat) : Nat := i * CHUNK_SIZE

/-- `const end = Math.min(file.size, start + CHUNK_SIZE)`. -/
def chunkEnd (size i : Nat) : Nat := min size (chunkStart i + CHUNK_SIZE)

/-- `Math.round (num / den)` for natural `num`, `den > 0`:
round half up, i.e. `⌊num/den + 1/2⌋ = ⌊(2*num + den) / (2*den)⌋`. -/
def jsRound (num den : Nat) : Nat := (2 * num + den) / (2 * den)

/-- `Math.round(((i + 1) / totalChunks) * 100)` — the progress percentage
reported after chunk `i` of `n` is acknowledged. -/
def chunkPercent (n i : Nat) : Nat := jsRound ((i + 1) * 100) n

/-- Observable events of one upload run, in temporal order. -/
inductive Event where
  | chunkReq (chunkIndex attempt startByte endByte : Nat)
  | sleep (ms : Nat)
  | progress (percent : Nat)
  | finalizeReq (body : List (String × String))
  | notify (title message kind : String)
deriving Repr, DecidableEq

/-- Oracle for the remote endpoint's behaviour.
`chunkOk i a` is `resp.ok` of the `a`-th (1-based) attempt for chunk `i`;
a transport error (fetch throwing) is also modelled as `chunkOk = false`,
with `chunkErrText i a` the response text (or stringified caught error)
recorded into `lastError` by that failed attempt.
`finalizeDetail` is what `JSON.parse(errText).detail` yields when the
finalize error body parses as a JSON object with a string `detail`
(`none` when `JSON.parse` throws). `finalizeBody` is the finalize
response text. -/
structure Remote where
  chunkOk : Nat → Nat → Bool
  chunkErrText : Nat → Nat → String
  finalizeOk : Bool
  finalizeDetail : Option String
  finalizeBody : String

/-- The retry loop `for (let attempt = 1; attempt <= 3; attempt++)` for one
chunk, with `fuel` remaining iterations. Returns the emitted events, the
`success` flag, and the final `lastError`. On a failed attempt the code
records `lastError` and then sleeps `500 * attempt` ms; on success it
breaks out before the sleep. -/
def chunkAttempts (r : Remote) (i startByte endByte : Nat) :
    Nat → Nat → String → List Event × Bool × String
  | _, 0, lastError => ([], false, lastError)
  | attempt, fuel + 1, lastError =>
    if r.chunkOk i attempt then
      ([Event.chunkReq i attempt startByte endByte], true, lastError)
    else
      let rest := chunkAttempts r i startByte endByte (attempt + 1) fuel
        (r.chunkErrText i attempt)
      (Event.chunkReq i attempt startByte endByte :: Event.sleep (500 * attempt) :: rest.1,
        rest.2)

/-- The outer loop `for (let i = 0; i < totalChunks; i++)` of
`uploadFileInChunks`, starting at chunk `i` with `fuel` chunks left.
Returns the trace and `some msg` when the upload aborted by throwing
`new Error("Chunk upload failed: " + lastError)`, else `none`.
After each acknowledged chunk the code invokes
`onProgress(Math.round(((i + 1) / totalChunks) * 100))`. -/
def chunkLoop (r : Remote) (size n : Nat) : Nat → Nat → List Event × Option String
  | _, 0 => ([], none)
  | i, fuel + 1 =>
    let a := chunkAttempts r i (chunkStart i) (chunkEnd size i) 1 3 ""
    if a.2.1 then
      let rest := chunkLoop r size n (i + 1) fuel
      (a.1 ++ Event.progress (chunkPercent n i) :: rest.1, rest.2)
    else
      (a.1, some ("Chunk upload failed: " ++ a.2.2))

/-- `uploadFileInChunks(file, onProgress)` restricted to its observable
behaviour: the trace of chunk requests, sleeps and progress callbacks, and
whether it threw. On success the source returns `{uploadUuid, totalChunks}`
where `uploadUuid` is the pre-generated UUID and
`totalChunks = totalChunksOf size`. -/
def uploadFileInChunks (r : Remote) (size : Nat) : List Event × Option String :=
  chunkLoop r size (totalChunksOf size) 0 (totalChunksOf size)

/-- A `File` value as the upload code uses it: a name and a byte size. -/
structure FileVal where
  name : String
  size : Nat
deriving Repr, DecidableEq

/-- The form data reaching `onSubmit`. JavaScript `undefined` string fields
are modelled as `""` (both are falsy in every check the code performs). -/
structure SubmitData where
  title : String
  description : String
  content : String
  language : String
  file : Option FileVal
deriving Repr, DecidableEq

/-- All external inputs of one `onSubmit` run: the user id, the selected
upload type, the form data, the remote behaviour, and the UUID produced by
`window.crypto.randomUUID()`. -/
structure SubmitEnv where
  userId : String
  selectedType : UploadType
  data : SubmitData
  remote : Remote
  uploadUuid : String

/-- `title.replace(/\s+/g, '-')`: each maximal run of whitespace becomes a
single `'-'` (ASCII-faithful model of the regex). The boolean records
whether the previous character was whitespace (i.e. the current run has
already emitted its `'-'`). -/
def titleSlugAux : Bool → List Char → List Char
  | _, [] => []
  | prevWs, c :: cs =>
    if c.isWhitespace then
      (if prevWs then [] else ['-']) ++ titleSlugAux true cs
    else
      c :: titleSlugAux false cs

/-- String version of `titleSlugAux`. -/
def titleSlug (s : String) : String := ⟨titleSlugAux false s.data⟩

/-- `` `${data.title.replace(/\s+/g, '-') || 'text-content'}.txt` ``. -/
def textFileName (title : String) : String :=
  (if titleSlug title = "" then "text-content" else titleSlug title) ++ ".txt"

/-- `content.trim()`: strip leading and trailing whitespace (char-list model
of the JS trim). -/
def jsTrim (s : String) : String :=
  ⟨((s.data.dropWhile Char.isWhitespace).reverse.dropWhile Char.isWhitespace).reverse⟩

/-- The file-selection prologue of the `try` block of `onSubmit`:
for `text`, reject empty/whitespace-only content, else wrap the content in
a synthetic `File` (size = UTF-8 byte count, as `new File([content], …)`);
otherwise require a selected file. Errors are the thrown `Error` messages. -/
def fileAndName (ty : UploadType) (d : SubmitData) : Except String FileVal :=
  match ty with
  | .text =>
    if jsTrim d.content = "" then Except.error "No text content provided."
    else Except.ok ⟨textFileName d.title, d.content.utf8ByteSize⟩
  | _ =>
    match d.file with
    | none => Except.error "No file selected."
    | some f => Except.ok f

/-- The `URLSearchParams` built for the finalize request, in append order.
`description` is appended only when truthy (non-empty); `category_id`,
`release_rights` and `use_uid_filename` are hard-coded;
`language` is `data.language || ''`. -/
def finalizeParams (env : SubmitEnv) (fileName : String) (n : Nat) :
    List (String × String) :=
  ("title", env.data.title) ::
  (if env.data.description = "" then [] else [("description", env.data.description)]) ++
  [("category_id", "833299f6-ff1c-4fde-804f-6d3b3877c76e"),
   ("user_id", env.userId),
   ("media_type", mediaTypeStr env.selectedType),
   ("upload_uuid", env.uploadUuid),
   ("filename", fileName),
   ("total_chunks", toString n),
   ("release_rights", "creator"),
   ("language", env.data.language),
   ("use_uid_filename", "false")]

/-- The finalize non-success handler:
`try { const errJson = JSON.parse(errText); throw new Error(errJson.detail
|| 'Finalizing upload failed'); } catch { throw new Error(errText ||
'Finalizing upload failed'); }` — both paths inside the `try` throw, so the
`catch` always runs and the surfaced message is built from the raw text. -/
def finalizeErrMsg (detailParse : Option String) (errText : String) : String :=
  match (match detailParse with
    | some d => Except.error (if d = "" then "Finalizing upload failed" else d)
    | none => Except.error "SyntaxError: JSON.parse failed"
    : Except String String) with
  | Except.ok s => s
  | Except.error _ => if errText = "" then "Finalizing upload failed" else errText

/-- Terminal outcome of one `onSubmit` run. -/
inductive Outcome where
  | noUser
  | failed (message : String)
  | completed
deriving Repr, DecidableEq

/-- The `catch` block of `onSubmit`: error notification
(`err.message || 'An unexpected error occurred'`) and progress reset to 0. -/
def failEvents (msg : String) : List Event :=
  [Event.notify "Error" (if msg = "" then "An unexpected error occurred" else msg) "error",
   Event.progress 0]

/-- Continuation of `onSubmit` after `uploadFileInChunks` finishes:
`trace` is the emitted chunk-phase trace and the `Option String` is its
thrown error (if any). When the chunk phase threw, the `catch` block runs;
otherwise the finalize request is issued, and on finalize success the code
sets progress 100 and shows the success notification, while on a finalize
non-success response it throws and the `catch` block runs. -/
def afterChunks (env : SubmitEnv) (f : FileVal) (trace : List Event) :
    Option String → List Event × Outcome
  | some msg => (Event.progress 5 :: trace ++ failEvents msg, Outcome.failed msg)
  | none =>
    let n := totalChunksOf f.size
    let body := finalizeParams env f.name n
    if env.remote.finalizeOk then
      (Event.progress 5 :: trace ++
        [Event.finalizeReq body, Event.progress 100,
         Event.notify "Success" "Content uploaded successfully!" "success"],
       Outcome.completed)
    else
      let msg := finalizeErrMsg env.remote.finalizeDetail env.remote.finalizeBody
      (Event.progress 5 :: trace ++ Event.finalizeReq body :: failEvents msg,
       Outcome.failed msg)

/-- `onSubmit(data)`: guard on `userId`, set progress to 5, build the file,
run `uploadFileInChunks`, then continue with the finalize phase
(`afterChunks`); on any thrown error the `catch` block runs. -/
def onSubmit (env : SubmitEnv) : List Event × Outcome :=
  if env.userId = "" then
    ([Event.notify "Error" "User not identified. Cannot start upload." "error"],
      Outcome.noUser)
  else
    match fileAndName env.selectedType env.data with
    | Except.error msg => (Event.progress 5 :: failEvents msg, Outcome.failed msg)
    | Except.ok f =>
      let run := chunkLoop env.remote f.size (totalChunksOf f.size) 0 (totalChunksOf f.size)
      afterChunks env f run.1 run.2

/-- Chunk indices of the chunk requests of a trace, in order. -/
def reqIndices (tr : List Event) : List Nat :=
  tr.filterMap fun e => match e with
    | Event.chunkReq i _ _ _ => some i
    | _ => none

/-- Percentages of the progress callbacks of a trace, in order. -/
def progressValues (tr : List Event) : List Nat :=
  tr.filterMap fun e => match e with
    | Event.progress p => some p
    | _ => none

/-- Network requests are the chunk and finalize requests. -/
def isNetworkEvent : Event → Bool
  | Event.chunkReq _ _ _ _ => true
  | Event.finalizeReq _ => true
  | _ => false

/-- Number of finalize requests in a trace. -/
def countFinalize (tr : List Event) : Nat :=
  tr.countP fun e => match e with
    | Event.finalizeReq _ => true
    | _ => false

/-- The finalize bodies issued in a trace, in order. -/
def finalizeBodies (tr : List Event) : List (List (String × String)) :=
  tr.filterMap fun e => match e with
    | Event.finalizeReq b => some b
    | _ => none

/-- Chunk `j` is acknowledged within the 3 allowed attempts. -/
def chunkSucceeds (r : Remote) (j : Nat) : Bool :=
  r.chunkOk j 1 || r.chunkOk j 2 || r.chunkOk j 3

/-- Remote endpoint that accepts everything. -/
def allOkRemote : Remote := ⟨fun _ _ => true, fun _ _ => "", true, none, ""⟩

/-- Remote endpoint refusing every chunk attempt with body `network down`. -/
def failAllRemote : Remote := ⟨fun _ _ => false, fun _ _ => "network down", true, none, ""⟩

/-- Remote accepting chunk 0 and refusing every attempt of later chunks. -/
def failAfterFirstRemote : Remote :=
  ⟨fun i _ => i == 0, fun _ _ => "network down", true, none, ""⟩

/-- Remote whose chunk endpoint fails attempts 1 and 2 and succeeds on attempt 3. -/
def thirdTrySucceedsRemote : Remote :=
  ⟨fun _ a => a == 3, fun _ _ => "gateway timeout", true, none, ""⟩

/-- Remote accepting all chunks but rejecting finalize with a JSON error body
whose `detail` field is `Invalid metadata`. -/
def finalizeRejectsRemote : Remote :=
  ⟨fun _ _ => true, fun _ _ => "", false, some "Invalid metadata",
   "\x7b\"detail\": \"Invalid metadata\"\x7d"⟩

/-- Remote accepting everything; finalize success body names record `rec-A`. -/
def recARemote : Remote :=
  ⟨fun _ _ => true, fun _ _ => "", true, none, "\x7b\"id\": \"rec-A\"\x7d"⟩

/-- Same as `recARemote` but the created record is `rec-B`. -/
def recBRemote : Remote :=
  ⟨fun _ _ => true, fun _ _ => "", true, none, "\x7b\"id\": \"rec-B\"\x7d"⟩

/-- Text submission: title `Greeting`, content `hello`, empty description. -/
def helloData : SubmitData := ⟨"Greeting", "", "hello", "telugu", none⟩

/-- A text upload of `hello` against an all-accepting remote. -/
def envHello : SubmitEnv := ⟨"user-1", UploadType.text, helloData, allOkRemote, "uuid-1"⟩

/-- A 200-chunk audio file: 199 full 5 MiB chunks plus one byte. -/
def bigFile : FileVal := ⟨"big.bin", 199 * 5242880 + 1⟩

/-- Upload of `bigFile` against an all-accepting remote. -/
def envBig : SubmitEnv :=
  ⟨"user-1", UploadType.audio, ⟨"Big", "", "", "telugu", some bigFile⟩, allOkRemote, "uuid-2"⟩

/-- A two-chunk video file (one full chunk plus one byte). -/
def twoChunkFile : FileVal := ⟨"two.bin", 5242881⟩

/-- Upload of `twoChunkFile` where chunk 0 fails all three attempts. -/
def envFailAt0 : SubmitEnv :=
  ⟨"user-1", UploadType.video, ⟨"T", "", "", "telugu", some twoChunkFile⟩, failAllRemote, "uuid-3"⟩

/-- Upload of `twoChunkFile` where chunk 0 succeeds and chunk 1 fails all
three attempts. -/
def envFailAt1 : SubmitEnv :=
  ⟨"user-1", UploadType.video, ⟨"T", "", "", "telugu", some twoChunkFile⟩,
   failAfterFirstRemote, "uuid-4"⟩

/-- One-chunk audio upload against `thirdTrySucceedsRemote`. -/
def envThirdTry : SubmitEnv :=
  ⟨"user-1", UploadType.audio, ⟨"A", "", "", "telugu", some ⟨"a.mp3", 7⟩⟩,
   thirdTrySucceedsRemote, "uuid-5"⟩

/-- Text upload whose finalize request is rejected. -/
def envFinalizeFails : SubmitEnv :=
  ⟨"user-1", UploadType.text, helloData, finalizeRejectsRemote, "uuid-6"⟩

/-- Successful text upload whose created record is `rec-A`. -/
def envRecA : SubmitEnv := ⟨"user-1", UploadType.text, helloData, recARemote, "uuid-7"⟩

/-- Successful text upload identical to `envRecA` except that the remote
assigns record `rec-B`. -/
def envRecB : SubmitEnv := ⟨"user-1", UploadType.text, helloData, recBRemote, "uuid-7"⟩

/-- Text submission with whitespace-only content. -/
def envEmptyText : SubmitEnv :=
  ⟨"user-1", UploadType.text, ⟨"T", "", "   ", "telugu", none⟩, allOkRemote, "uuid-8"⟩

/-- Audio submission with no file selected. -/
def envNoFile : SubmitEnv :=
  ⟨"user-1", UploadType.audio, ⟨"T", "", "", "telugu", none⟩, allOkRemote, "uuid-9"⟩

/-! ### Lemmas about the retry loop -/

/-- Every event emitted by the retry loop for chunk `i` is either a request
for chunk `i` itself (with an attempt number inside the window) or a sleep. -/
theorem chunkAttempts_events (r : Remote) (i s en : Nat) :
    ∀ fuel attempt le e, e ∈ (chunkAttempts r i s en attempt fuel le).1 →
      (∃ a, e = Event.chunkReq i a s en ∧ attempt ≤ a ∧ a < attempt + fuel) ∨
      (∃ ms, e = Event.sleep ms) := by
  intro fuel
  induction fuel with
  | zero =>
    intro attempt le e he
    simp [chunkAttempts] at he
  | succ f ih =>
    intro attempt le e he
    by_cases h : r.chunkOk i attempt = true
    · simp [chunkAttempts, h] at he
      exact Or.inl ⟨attempt, he, le_refl _, by omega⟩
    · simp [chunkAttempts, h] at he
      rcases he with he | he | he
      · exact Or.inl ⟨attempt, he, le_refl _, by omega⟩
      · exact Or.inr ⟨500 * attempt, he⟩
      · rcases ih (attempt + 1) (r.chunkErrText i attempt) e he with ⟨a, ha, h1, h2⟩ | hs
        · exact Or.inl ⟨a, ha, by omega, by omega⟩
        · exact Or.inr hs

/-- If some attempt in the window succeeds, the retry loop succeeds. -/
theorem chunkAttempts_success (r : Remote) (i s en : Nat) :
    ∀ fuel attempt le k, k < fuel → r.chunkOk i (attempt + k) = true →
      (chunkAttempts r i s en attempt fuel le).2.1 = true := by
  intro fuel
  induction fuel with
  | zero =>
    intro attempt le k hk
    omega
  | succ f ih =>
    intro attempt le k hk hok
    by_cases h : r.chunkOk i attempt = true
    · simp [chunkAttempts, h]
    · have hk0 : k ≠ 0 := by
        rintro rfl
        exact h (by simpa using hok)
      simp [chunkAttempts, h]
      refine ih (attempt + 1) _ (k - 1) (by omega) ?_
      have : attempt + 1 + (k - 1) = attempt + k := by omega
      rw [this]
      exact hok

/-- If every attempt in the window fails, the retry loop fails and
`lastError` is the error text of the final attempt. -/
theorem chunkAttempts_all_fail (r : Remote) (i s en : Nat) :
    ∀ fuel attempt le, (∀ k, k < fuel → r.chunkOk i (attempt + k) = false) →
      (chunkAttempts r i s en attempt fuel le).2.1 = false ∧
      (chunkAttempts r i s en attempt fuel le).2.2 =
        (if fuel = 0 then le else r.chunkErrText i (attempt + fuel - 1)) := by
  intro fuel
  induction fuel with
  | zero =>
    intro attempt le _
    simp [chunkAttempts]
  | succ f ih =>
    intro attempt le hfail
    have h0 : r.chunkOk i attempt = false := by simpa using hfail 0 (by omega)
    have hrest := ih (attempt + 1) (r.chunkErrText i attempt)
      (fun k hk => by simpa [Nat.add_assoc, Nat.add_comm 1 k] using hfail (k + 1) (by omega))
    simp only [chunkAttempts, h0, Bool.false_eq_true, if_false]
    refine ⟨hrest.1, ?_⟩
    rw [hrest.2]
    rcases Nat.eq_zero_or_pos f with hf | hf
    · subst hf; simp
    · have h1 : ¬ f = 0 := by omega
      have h2 : ¬ f + 1 = 0 := by omega
      simp only [h1, h2, if_false]
      congr 1
      omega

/-- A chunk whose endpoint fails twice and succeeds on the third attempt
produces exactly the trace: request 1, 500 ms sleep, request 2, 1000 ms
sleep, request 3, and ends in success with `lastError` from attempt 2. -/
theorem chunkAttempts_third_try (r : Remote) (i s en : Nat) (le : String)
    (h1 : r.chunkOk i 1 = false) (h2 : r.chunkOk i 2 = false)
    (h3 : r.chunkOk i 3 = true) :
    chunkAttempts r i s en 1 3 le =
      ([Event.chunkReq i 1 s en, Event.sleep 500, Event.chunkReq i 2 s en,
        Event.sleep 1000, Event.chunkReq i 3 s en], true, r.chunkErrText i 2) := by
  show chunkAttempts r i s en 1 (2 + 1) le = _
  rw [chunkAttempts]
  simp only [h1, Bool.false_eq_true, if_false]
  show _ = _
  rw [chunkAttempts]
  simp only [h2, Bool.false_eq_true, if_false]
  rw [chunkAttempts]
  simp [h3]

/-! ### Lemmas about the chunk loop -/

/-- Unpack `chunkSucceeds` into a witnessing attempt of the retry window. -/
theorem chunkSucceeds_elim {r : Remote} {j : Nat} (h : chunkSucceeds r j = true) :
    ∃ k, k < 3 ∧ r.chunkOk j (1 + k) = true := by
  simp only [chunkSucceeds, Bool.or_eq_true] at h
  rcases h with (h | h) | h
  · exact ⟨0, by omega, h⟩
  · exact ⟨1, by omega, h⟩
  · exact ⟨2, by omega, h⟩

/-- Every event of the chunk loop trace is a chunk request (with index in
the processed window and attempt between 1 and 3), a sleep, or a progress
callback — never a finalize request or a notification. -/
theorem chunkLoop_events (r : Remote) (size n : Nat) :
    ∀ fuel i e, e ∈ (chunkLoop r size n i fuel).1 →
      (∃ i' a s en, e = Event.chunkReq i' a s en ∧ i ≤ i' ∧ i' < i + fuel ∧
        1 ≤ a ∧ a ≤ 3) ∨
      (∃ ms, e = Event.sleep ms) ∨ (∃ p, e = Event.progress p) := by
  intro fuel
  induction fuel with
  | zero =>
    intro i e he
    simp [chunkLoop] at he
  | succ f ih =>
    intro i e he
    simp only [chunkLoop] at he
    by_cases h : (chunkAttempts r i (chunkStart i) (chunkEnd size i) 1 3 "").2.1 = true
    · simp only [h, if_true, List.mem_append, List.mem_cons] at he
      rcases he with he | he | he
      · rcases chunkAttempts_events r i _ _ 3 1 "" e he with ⟨a, ha, h1, h2⟩ | hs
        · exact Or.inl ⟨i, a, _, _, ha, le_refl _, by omega, h1, by omega⟩
        · exact Or.inr (Or.inl hs)
      · exact Or.inr (Or.inr ⟨_, he⟩)
      · rcases ih (i + 1) e he with ⟨i', a, s, en, h1, h2, h3, h4, h5⟩ | hs
        · exact Or.inl ⟨i', a, s, en, h1, by omega, by omega, h4, h5⟩
        · exact hs.elim (fun hs => Or.inr (Or.inl hs)) (fun hs => Or.inr (Or.inr hs))
    · simp only [h, if_false, Bool.not_eq_true] at he
      rw [if_neg (by simp [h])] at he
      rcases chunkAttempts_events r i _ _ 3 1 "" e he with ⟨a, ha, h1, h2⟩ | hs
      · exact Or.inl ⟨i, a, _, _, ha, le_refl _, by omega, h1, by omega⟩
      · exact Or.inr (Or.inl hs)

/-- If every chunk of the window is acknowledged within 3 attempts, the
chunk loop does not throw. -/
theorem chunkLoop_success (r : Remote) (size n : Nat) :
    ∀ fuel i, (∀ j, i ≤ j → j < i + fuel → chunkSucceeds r j = true) →
      (chunkLoop r size n i fuel).2 = none := by
  intro fuel
  induction fuel with
  | zero =>
    intro i _
    simp [chunkLoop]
  | succ f ih =>
    intro i hall
    obtain ⟨k, hk, hok⟩ := chunkSucceeds_elim (hall i (le_refl i) (by omega))
    have hsucc := chunkAttempts_success r i (chunkStart i) (chunkEnd size i) 3 1 "" k hk hok
    simp only [chunkLoop, hsucc, if_true]
    exact ih (i + 1) (fun j h1 h2 => hall j (by omega) (by omega))

/-- If the chunks before `fIdx` are all acknowledged and every attempt of
chunk `fIdx` fails, the loop throws `Chunk upload failed:` with the error
text of the final (3rd) attempt of chunk `fIdx`, and no chunk request with
an index beyond `fIdx` is ever emitted. -/
theorem chunkLoop_abort (r : Remote) (size n : Nat) :
    ∀ fuel i fIdx, i ≤ fIdx → fIdx < i + fuel →
      (∀ j, i ≤ j → j < fIdx → chunkSucceeds r j = true) →
      (∀ k, k < 3 → r.chunkOk fIdx (1 + k) = false) →
      (chunkLoop r size n i fuel).2 =
          some ("Chunk upload failed: " ++ r.chunkErrText fIdx 3) ∧
      (∀ e ∈ (chunkLoop r size n i fuel).1,
        ∀ i' a s en, e = Event.chunkReq i' a s en → i' ≤ fIdx) := by
  intro fuel
  induction fuel with
  | zero =>
    intro i fIdx h1 h2
    omega
  | succ f ih =>
    intro i fIdx hle hlt hpre hfail
    rcases Nat.eq_or_lt_of_le hle with heq | hgt
    · subst heq
      have hf := chunkAttempts_all_fail r i (chunkStart i) (chunkEnd size i) 3 1 ""
        (fun k hk => hfail k hk)
      have hcond : ¬ (chunkAttempts r i (chunkStart i) (chunkEnd size i) 1 3 "").2.1 = true := by
        simp [hf.1]
      constructor
      · simp only [chunkLoop]
        rw [if_neg hcond, hf.2]
        simp
      · intro e he i' a s en hee
        simp only [chunkLoop] at he
        rw [if_neg hcond] at he
        rcases chunkAttempts_events r i _ _ 3 1 "" e he with ⟨a', ha', _, _⟩ | ⟨ms, hms⟩
        · rw [hee] at ha'
          cases ha'
          exact le_refl _
        · rw [hee] at hms
          cases hms
    · obtain ⟨k, hk, hok⟩ := chunkSucceeds_elim (hpre i (le_refl i) hgt)
      have hsucc := chunkAttempts_success r i (chunkStart i) (chunkEnd size i) 3 1 "" k hk hok
      have hrec := ih (i + 1) fIdx (by omega) (by omega)
        (fun j h1 h2 => hpre j (by omega) h2) hfail
      constructor
      · simp only [chunkLoop, hsucc, if_true]
        exact hrec.1
      · intro e he i' a s en hee
        simp only [chunkLoop, hsucc, if_true, List.mem_append, List.mem_cons] at he
        rcases he with he | he | he
        · rcases chunkAttempts_events r i _ _ 3 1 "" e he with ⟨a', ha', _, _⟩ | ⟨ms, hms⟩
          · rw [hee] at ha'
            cases ha'
            omega
          · rw [hee] at hms
            cases hms
        · rw [hee] at he
          cases he
        · exact hrec.2 e he i' a s en hee

/-- `progressValues` distributes over append. -/
theorem progressValues_append (l1 l2 : List Event) :
    progressValues (l1 ++ l2) = progressValues l1 ++ progressValues l2 :=
  List.filterMap_append l1 l2 _

/-- `reqIndices` distributes over append. -/
theorem reqIndices_append (l1 l2 : List Event) :
    reqIndices (l1 ++ l2) = reqIndices l1 ++ reqIndices l2 :=
  List.filterMap_append l1 l2 _

/-- The retry loop emits no progress callbacks. -/
theorem chunkAttempts_no_progress (r : Remote) (i s en : Nat)
    (fuel attempt : Nat) (le : String) :
    progressValues (chunkAttempts r i s en attempt fuel le).1 = [] := by
  rw [progressValues, List.filterMap_eq_nil_iff]
  intro e he
  rcases chunkAttempts_events r i s en fuel attempt le e he with ⟨a, ha, _, _⟩ | ⟨ms, hms⟩
  · rw [ha]
  · rw [hms]

/-- A completed chunk loop reports exactly the rounded percentage of each
chunk of the window, in chunk order. -/
theorem chunkLoop_progressValues (r : Remote) (size n : Nat) :
    ∀ fuel i, (chunkLoop r size n i fuel).2 = none →
      progressValues (chunkLoop r size n i fuel).1 =
        (List.range' i fuel).map (chunkPercent n) := by
  intro fuel
  induction fuel with
  | zero =>
    intro i _
    simp [chunkLoop, progressValues]
  | succ f ih =>
    intro i hnone
    by_cases h : (chunkAttempts r i (chunkStart i) (chunkEnd size i) 1 3 "").2.1 = true
    · simp only [chunkLoop, h, if_true] at hnone ⊢
      rw [progressValues_append]
      rw [chunkAttempts_no_progress]
      have : progressValues (Event.progress (chunkPercent n i) ::
          (chunkLoop r size n (i + 1) f).1) =
          chunkPercent n i :: progressValues (chunkLoop r size n (i + 1) f).1 := by
        simp [progressValues]
      rw [this, ih (i + 1) hnone, List.range'_succ]
      simp
    · exfalso
      simp only [chunkLoop] at hnone
      rw [if_neg h] at hnone
      cases hnone

/-- A nonempty completed chunk loop ends with the progress callback of the
final chunk of the window. -/
theorem chunkLoop_last_progress (r : Remote) (size n : Nat) :
    ∀ fuel i, 0 < fuel → (chunkLoop r size n i fuel).2 = none →
      ∃ l, (chunkLoop r size n i fuel).1 =
        l ++ [Event.progress (chunkPercent n (i + fuel - 1))] := by
  intro fuel
  induction fuel with
  | zero =>
    intro i h
    omega
  | succ f ih =>
    intro i _ hnone
    by_cases h : (chunkAttempts r i (chunkStart i) (chunkEnd size i) 1 3 "").2.1 = true
    · simp only [chunkLoop, h, if_true] at hnone ⊢
      rcases Nat.eq_zero_or_pos f with hf | hf
      · subst hf
        refine ⟨(chunkAttempts r i (chunkStart i) (chunkEnd size i) 1 3 "").1, ?_⟩
        simp [chunkLoop]
      · obtain ⟨l, hl⟩ := ih (i + 1) hf hnone
        refine ⟨(chunkAttempts r i (chunkStart i) (chunkEnd size i) 1 3 "").1 ++
          Event.progress (chunkPercent n i) :: l, ?_⟩
        rw [hl]
        have harith : i + 1 + f - 1 = i + (f + 1) - 1 := by omega
        rw [harith]
        simp
    · exfalso
      simp only [chunkLoop] at hnone
      rw [if_neg h] at hnone
      cases hnone

/-- The chunk loop issues no finalize request. -/
theorem chunkLoop_countFinalize (r : Remote) (size n : Nat) (fuel i : Nat) :
    countFinalize (chunkLoop r size n i fuel).1 = 0 := by
  rw [countFinalize, List.countP_eq_zero]
  intro e he
  rcases chunkLoop_events r size n fuel i e he with ⟨i', a, s, en, h1, _⟩ | ⟨ms, h1⟩ | ⟨p, h1⟩ <;>
    rw [h1] <;> simp

/-- The chunk loop trace contains no finalize request event. -/
theorem chunkLoop_no_finalize (r : Remote) (size n : Nat) (fuel i : Nat) (b : List (String × String)) :
    Event.finalizeReq b ∉ (chunkLoop r size n i fuel).1 := by
  intro hmem
  rcases chunkLoop_events r size n fuel i _ hmem with ⟨i', a, s, en, h1, _⟩ | ⟨ms, h1⟩ | ⟨p, h1⟩ <;>
    cases h1

/-- `countFinalize` of the empty trace. -/
theorem countFinalize_nil : countFinalize [] = 0 := rfl

/-- A progress event is not a finalize request. -/
theorem countFinalize_cons_progress (p : Nat) (l : List Event) :
    countFinalize (Event.progress p :: l) = countFinalize l := by
  simp [countFinalize]

/-- A notification is not a finalize request. -/
theorem countFinalize_cons_notify (t m k : String) (l : List Event) :
    countFinalize (Event.notify t m k :: l) = countFinalize l := by
  simp [countFinalize]

/-- Each finalize request event counts once. -/
theorem countFinalize_cons_fin (b : List (String × String)) (l : List Event) :
    countFinalize (Event.finalizeReq b :: l) = countFinalize l + 1 := by
  simp [countFinalize, List.countP_cons]

/-- `countFinalize` distributes over append. -/
theorem countFinalize_append (l1 l2 : List Event) :
    countFinalize (l1 ++ l2) = countFinalize l1 + countFinalize l2 :=
  List.countP_append _ _ _

/-- The `catch` block issues no finalize request. -/
theorem countFinalize_failEvents (msg : String) :
    countFinalize (failEvents msg) = 0 := by
  simp [failEvents, countFinalize]

/-! ### Request-ordering helpers -/

/-- `reqIndices` of a chunk-request cons cell. -/
theorem reqIndices_cons_chunkReq (i a s en : Nat) (l : List Event) :
    reqIndices (Event.chunkReq i a s en :: l) = i :: reqIndices l := by
  simp [reqIndices]

/-- `reqIndices` skips sleeps. -/
theorem reqIndices_cons_sleep (ms : Nat) (l : List Event) :
    reqIndices (Event.sleep ms :: l) = reqIndices l := by
  simp [reqIndices]

/-- `reqIndices` skips progress callbacks. -/
theorem reqIndices_cons_progress (p : Nat) (l : List Event) :
    reqIndices (Event.progress p :: l) = reqIndices l := by
  simp [reqIndices]

/-- A reflexive-at-`x` relation chains over any replicate of `x`. -/
theorem chain_replicate {R : Nat → Nat → Prop} (x : Nat) (hx : R x x) :
    ∀ m, List.Chain' R (List.replicate m x)
  | 0 => by simp
  | 1 => by simp
  | m + 2 => by
    rw [List.replicate_succ, List.replicate_succ, List.chain'_cons]
    refine ⟨hx, ?_⟩
    rw [← List.replicate_succ]
    exact chain_replicate x hx (m + 1)

/-- Last element of a nonempty replicate. -/
theorem getLast?_replicate (x : Nat) :
    ∀ m, (List.replicate (m + 1) x).getLast? = some x
  | 0 => rfl
  | m + 1 => by
    rw [List.replicate_succ, List.replicate_succ, List.getLast?_cons_cons,
      ← List.replicate_succ]
    exact getLast?_replicate x m

/-- The retry loop requests one single chunk index: its `reqIndices` is a
nonempty constant list. -/
theorem chunkAttempts_reqIndices (r : Remote) (i s en : Nat) :
    ∀ fuel attempt le, 0 < fuel → ∃ m,
      reqIndices (chunkAttempts r i s en attempt fuel le).1 =
        List.replicate (m + 1) i := by
  intro fuel
  induction fuel with
  | zero =>
    intro attempt le h
    omega
  | succ f ih =>
    intro attempt le _
    by_cases h : r.chunkOk i attempt = true
    · refine ⟨0, ?_⟩
      simp [chunkAttempts, h, reqIndices]
    · have hstep : (chunkAttempts r i s en attempt (f + 1) le).1 =
          Event.chunkReq i attempt s en :: Event.sleep (500 * attempt) ::
          (chunkAttempts r i s en (attempt + 1) f (r.chunkErrText i attempt)).1 := by
        simp [chunkAttempts, h]
      rcases Nat.eq_zero_or_pos f with hf | hf
      · refine ⟨0, ?_⟩
        subst hf
        rw [hstep, reqIndices_cons_chunkReq, reqIndices_cons_sleep]
        simp [chunkAttempts, reqIndices]
      · obtain ⟨m, hm⟩ := ih (attempt + 1) (r.chunkErrText i attempt) hf
        refine ⟨m + 1, ?_⟩
        rw [hstep, reqIndices_cons_chunkReq, reqIndices_cons_sleep, hm]
        simp [List.replicate_succ]

/-- The first chunk request of a nonempty chunk loop is for the first chunk
of the window. -/
theorem chunkLoop_reqIndices_head (r : Remote) (size n i f : Nat) :
    (reqIndices (chunkLoop r size n i (f + 1)).1).head? = some i := by
  obtain ⟨m, hm⟩ :=
    chunkAttempts_reqIndices r i (chunkStart i) (chunkEnd size i) 3 1 "" (by omega)
  by_cases h : (chunkAttempts r i (chunkStart i) (chunkEnd size i) 1 3 "").2.1 = true
  · simp only [chunkLoop, h, if_true]
    rw [reqIndices_append, hm, List.replicate_succ]
    simp
  · simp only [chunkLoop]
    rw [if_neg h, hm, List.replicate_succ]
    simp

/-- Consecutive chunk requests of the chunk loop are either retries of the
same index or pass to the next index. -/
theorem chunkLoop_chain (r : Remote) (size n : Nat) :
    ∀ fuel i, List.Chain' (fun a b => b = a ∨ b = a + 1)
      (reqIndices (chunkLoop r size n i fuel).1) := by
  intro fuel
  induction fuel with
  | zero =>
    intro i
    simp [chunkLoop, reqIndices]
  | succ f ih =>
    intro i
    obtain ⟨m, hm⟩ :=
      chunkAttempts_reqIndices r i (chunkStart i) (chunkEnd size i) 3 1 "" (by omega)
    by_cases h : (chunkAttempts r i (chunkStart i) (chunkEnd size i) 1 3 "").2.1 = true
    · simp only [chunkLoop, h, if_true]
      rw [reqIndices_append, reqIndices_cons_progress, hm, List.chain'_append]
      refine ⟨chain_replicate i (Or.inl rfl) (m + 1), ih (i + 1), ?_⟩
      intro x hx y hy
      rw [getLast?_replicate] at hx
      simp only [Option.mem_def, Option.some_inj] at hx
      subst hx
      cases f with
      | zero => simp [chunkLoop, reqIndices] at hy
      | succ f2 =>
        rw [chunkLoop_reqIndices_head] at hy
        simp only [Option.mem_def, Option.some_inj] at hy
        subst hy
        exact Or.inr rfl
    · simp only [chunkLoop]
      rw [if_neg h, hm]
      exact chain_replicate i (Or.inl rfl) (m + 1)

/-! ### Percentage arithmetic -/

/-- The percentage reported for the final chunk is exactly 100. -/
theorem chunkPercent_last (n : Nat) (hn : 0 < n) : chunkPercent n (n - 1) = 100 := by
  have h1 : 2 * ((n - 1 + 1) * 100) + n = n + 2 * n * 100 := by omega
  have h2 : n / (2 * n) = 0 := Nat.div_eq_of_lt (by omega)
  unfold chunkPercent jsRound
  rw [h1, Nat.add_mul_div_left _ _ (by omega : 0 < 2 * n), h2]

/-- Reported percentages are monotone in the chunk index. -/
theorem chunkPercent_mono (n : Nat) {i j : Nat} (hij : i ≤ j) :
    chunkPercent n i ≤ chunkPercent n j := by
  unfold chunkPercent jsRound
  apply Nat.div_le_div_right
  omega

/-- For uploads of at most 199 chunks, no chunk before the final one can
round to 100 percent. -/
theorem chunkPercent_lt_100 {n i : Nat} (hn : n ≤ 199) (hi : i + 1 < n) :
    chunkPercent n i < 100 := by
  unfold chunkPercent jsRound
  rw [Nat.div_lt_iff_lt_mul (by omega : 0 < 2 * n)]
  omega

/-! ### Unfolding `onSubmit` along its three paths -/

/-- `onSubmit` when the input validation throws before any upload starts. -/
theorem onSubmit_input_error (env : SubmitEnv) (msg : String)
    (hu : ¬ env.userId = "")
    (hf : fileAndName env.selectedType env.data = Except.error msg) :
    onSubmit env = (Event.progress 5 :: failEvents msg, Outcome.failed msg) := by
  rw [onSubmit, if_neg hu, hf]

/-- `onSubmit` with valid input reduces to the chunk phase followed by its
continuation. -/
theorem onSubmit_ok (env : SubmitEnv) (f : FileVal)
    (hu : ¬ env.userId = "")
    (hf : fileAndName env.selectedType env.data = Except.ok f) :
    onSubmit env = afterChunks env f
      (chunkLoop env.remote f.size (totalChunksOf f.size) 0 (totalChunksOf f.size)).1
      (chunkLoop env.remote f.size (totalChunksOf f.size) 0 (totalChunksOf f.size)).2 := by
  rw [onSubmit, if_neg hu, hf]

/-- `onSubmit` when some chunk exhausts its retries. -/
theorem onSubmit_chunk_fail (env : SubmitEnv) (f : FileVal) (msg : String)
    (hu : ¬ env.userId = "")
    (hf : fileAndName env.selectedType env.data = Except.ok f)
    (hrun : (chunkLoop env.remote f.size (totalChunksOf f.size) 0
      (totalChunksOf f.size)).2 = some msg) :
    onSubmit env =
      (Event.progress 5 ::
        (chunkLoop env.remote f.size (totalChunksOf f.size) 0 (totalChunksOf f.size)).1 ++
        failEvents msg, Outcome.failed msg) := by
  rw [onSubmit_ok env f hu hf, hrun]
  rfl

/-- `onSubmit` once every chunk is acknowledged: the finalize request is
issued, and the outcome depends only on `finalizeOk`. -/
theorem onSubmit_chunks_ok (env : SubmitEnv) (f : FileVal)
    (hu : ¬ env.userId = "")
    (hf : fileAndName env.selectedType env.data = Except.ok f)
    (hrun : (chunkLoop env.remote f.size (totalChunksOf f.size) 0
      (totalChunksOf f.size)).2 = none) :
    onSubmit env =
      if env.remote.finalizeOk then
        (Event.progress 5 ::
          (chunkLoop env.remote f.size (totalChunksOf f.size) 0 (totalChunksOf f.size)).1 ++
          [Event.finalizeReq (finalizeParams env f.name (totalChunksOf f.size)),
           Event.progress 100,
           Event.notify "Success" "Content uploaded successfully!" "success"],
         Outcome.completed)
      else
        (Event.progress 5 ::
          (chunkLoop env.remote f.size (totalChunksOf f.size) 0 (totalChunksOf f.size)).1 ++
          Event.finalizeReq (finalizeParams env f.name (totalChunksOf f.size)) ::
          failEvents (finalizeErrMsg env.remote.finalizeDetail env.remote.finalizeBody),
         Outcome.failed (finalizeErrMsg env.remote.finalizeDetail env.remote.finalizeBody)) := by
  rw [onSubmit_ok env f hu hf, hrun]
  rfl

/-- The retry loop only reads the chunk fields of the remote oracle. -/
theorem chunkAttempts_congr (r1 r2 : Remote) (hok : r1.chunkOk = r2.chunkOk)
    (herr : r1.chunkErrText = r2.chunkErrText) (i s en : Nat) :
    ∀ fuel attempt le,
      chunkAttempts r1 i s en attempt fuel le = chunkAttempts r2 i s en attempt fuel le := by
  intro fuel
  induction fuel with
  | zero =>
    intro attempt le
    rfl
  | succ f ih =>
    intro attempt le
    show chunkAttempts r1 i s en attempt (f + 1) le = chunkAttempts r2 i s en attempt (f + 1) le
    rw [chunkAttempts, chunkAttempts, hok, herr, ih]

/-- The chunk loop only reads the chunk fields of the remote oracle. -/
theorem chunkLoop_congr (r1 r2 : Remote) (hok : r1.chunkOk = r2.chunkOk)
    (herr : r1.chunkErrText = r2.chunkErrText) (size n : Nat) :
    ∀ fuel i, chunkLoop r1 size n i fuel = chunkLoop r2 size n i fuel := by
  intro fuel
  induction fuel with
  | zero =>
    intro i
    rfl
  | succ f ih =>
    intro i
    show chunkLoop r1 size n i (f + 1) = chunkLoop r2 size n i (f + 1)
    rw [chunkLoop, chunkLoop, chunkAttempts_congr r1 r2 hok herr, ih]

/-! ### Claim theorems -/

/-- C1: For every file of size `k > 0` bytes, the upload computes
`totalChunks = ceil(k / (5*1024*1024))` with a 5 MiB chunk size (the two
inequalities characterise the ceiling), and the chunk byte ranges
`[i*chunkSize, min(k, (i+1)*chunkSize))` for `i = 0 .. totalChunks-1`
exactly cover `[0, k)` with no gaps and no overlaps: the first range starts
at 0, the last ends at `k`, consecutive ranges meet exactly, every range is
nonempty, and every byte below `k` lies in exactly one range. -/
theorem C1_chunk_partition (k : Nat) (hk : 0 < k) :
    0 < totalChunksOf k ∧
    (totalChunksOf k - 1) * CHUNK_SIZE < k ∧ k ≤ totalChunksOf k * CHUNK_SIZE ∧
    chunkStart 0 = 0 ∧
    chunkEnd k (totalChunksOf k - 1) = k ∧
    (∀ i, i + 1 < totalChunksOf k → chunkEnd k i = chunkStart (i + 1)) ∧
    (∀ i, i < totalChunksOf k → chunkStart i < chunkEnd k i) ∧
    (∀ b, b < k → ∃ i, i < totalChunksOf k ∧ chunkStart i ≤ b ∧ b < chunkEnd k i ∧
      ∀ j, j < totalChunksOf k → chunkStart j ≤ b → b < chunkEnd k j → j = i) := by
  refine ⟨?_, ?_, ?_, ?_, ?_, ?_, ?_, ?_⟩
  · simp only [totalChunksOf, CHUNK_SIZE]
    omega
  · simp only [totalChunksOf, CHUNK_SIZE]
    omega
  · simp only [totalChunksOf, CHUNK_SIZE]
    omega
  · simp only [chunkStart, CHUNK_SIZE]
  · simp only [totalChunksOf, chunkEnd, chunkStart, CHUNK_SIZE]
    omega
  · intro i hi
    simp only [totalChunksOf, CHUNK_SIZE] at hi
    simp only [chunkEnd, chunkStart, CHUNK_SIZE]
    omega
  · intro i hi
    simp only [totalChunksOf, CHUNK_SIZE] at hi
    simp only [chunkEnd, chunkStart, CHUNK_SIZE]
    omega
  · intro b hb
    refine ⟨b / (5 * 1024 * 1024), ?_, ?_, ?_, ?_⟩
    · simp only [totalChunksOf, CHUNK_SIZE]
      omega
    · simp only [chunkStart, CHUNK_SIZE]
      omega
    · simp only [chunkEnd, chunkStart, CHUNK_SIZE]
      omega
    · intro j hj h1 h2
      simp only [totalChunksOf, CHUNK_SIZE] at hj
      simp only [chunkStart, CHUNK_SIZE] at h1
      simp only [chunkEnd, chunkStart, CHUNK_SIZE] at h2
      omega

/-- Witness for C1 at a 12 MiB file (3 chunks). -/
theorem C1_chunk_partition_witness :
    chunkStart 0 = 0 ∧ chunkEnd 12582912 (totalChunksOf 12582912 - 1) = 12582912 :=
  ⟨(C1_chunk_partition 12582912 (by decide)).2.2.2.1,
   (C1_chunk_partition 12582912 (by decide)).2.2.2.2.1⟩

/-- C3: every chunk is attempted at most 3 times (attempt numbers of all
chunk requests lie in `[1, 3]`; a transport error and a non-success response
are both modelled as a failed attempt by the `Remote` oracle); a chunk
endpoint failing exactly twice and succeeding on the 3rd attempt produces
the trace request, 500 ms sleep, request, 1000 ms sleep, request, and
succeeds; and when every chunk's 3rd attempt succeeds (and finalize
accepts), the upload completes overall. -/
theorem C3_retry_policy (env : SubmitEnv) (f : FileVal) (size : Nat) :
    (∀ e ∈ (uploadFileInChunks env.remote size).1,
      ∀ i a s en, e = Event.chunkReq i a s en → 1 ≤ a ∧ a ≤ 3) ∧
    (∀ i s en le, env.remote.chunkOk i 1 = false → env.remote.chunkOk i 2 = false →
      env.remote.chunkOk i 3 = true →
      chunkAttempts env.remote i s en 1 3 le =
        ([Event.chunkReq i 1 s en, Event.sleep 500, Event.chunkReq i 2 s en,
          Event.sleep 1000, Event.chunkReq i 3 s en], true,
         env.remote.chunkErrText i 2)) ∧
    (¬ env.userId = "" → fileAndName env.selectedType env.data = Except.ok f →
      (∀ j, j < totalChunksOf f.size → env.remote.chunkOk j 3 = true) →
      env.remote.finalizeOk = true →
      (onSubmit env).2 = Outcome.completed) := by
  refine ⟨?_, ?_, ?_⟩
  · intro e he i a s en hee
    rcases chunkLoop_events env.remote size (totalChunksOf size) (totalChunksOf size) 0 e he with
      ⟨i', a', s', en', h1, _, _, h4, h5⟩ | ⟨ms, h1⟩ | ⟨p, h1⟩
    · rw [hee] at h1
      cases h1
      exact ⟨h4, h5⟩
    · rw [hee] at h1
      cases h1
    · rw [hee] at h1
      cases h1
  · intro i s en le h1 h2 h3
    exact chunkAttempts_third_try env.remote i s en le h1 h2 h3
  · intro hu hf hall hfin
    have hnone := chunkLoop_success env.remote f.size (totalChunksOf f.size)
      (totalChunksOf f.size) 0
      (fun j hj1 hj2 => by
        have h3 := hall j (by omega)
        simp [chunkSucceeds, h3])
    rw [onSubmit_chunks_ok env f hu hf hnone, if_pos hfin]

/-- Witness for C3: the third-try remote produces the 500 ms and 1000 ms
backoff trace and the overall upload completes. -/
theorem C3_retry_policy_witness :
    chunkAttempts thirdTrySucceedsRemote 0 0 7 1 3 "" =
      ([Event.chunkReq 0 1 0 7, Event.sleep 500, Event.chunkReq 0 2 0 7,
        Event.sleep 1000, Event.chunkReq 0 3 0 7], true,
       thirdTrySucceedsRemote.chunkErrText 0 2) ∧
    (onSubmit envThirdTry).2 = Outcome.completed :=
  ⟨(C3_retry_policy envThirdTry ⟨"a.mp3", 7⟩ 7).2.1 0 0 7 "" rfl rfl rfl,
   (C3_retry_policy envThirdTry ⟨"a.mp3", 7⟩ 7).2.2 (by decide) rfl
     (fun j hj => rfl) rfl⟩

/-- C7: after each acknowledged chunk `i` of `n`, the progress callback is
invoked with exactly `round((i+1)/n*100)` (the reported percentages of a
completed run are exactly that sequence, in order); the sequence is
monotone (non-decreasing), and reaches 100 at the last chunk. -/
theorem C7_progress_percentages (r : Remote) (size : Nat)
    (hn : 0 < totalChunksOf size)
    (hall : ∀ j, j < totalChunksOf size → chunkSucceeds r j = true) :
    progressValues (uploadFileInChunks r size).1 =
      (List.range (totalChunksOf size)).map (chunkPercent (totalChunksOf size)) ∧
    (∀ i j, i ≤ j →
      chunkPercent (totalChunksOf size) i ≤ chunkPercent (totalChunksOf size) j) ∧
    chunkPercent (totalChunksOf size) (totalChunksOf size - 1) = 100 := by
  have hnone := chunkLoop_success r size (totalChunksOf size) (totalChunksOf size) 0
    (fun j h1 h2 => hall j (by omega))
  refine ⟨?_, fun i j hij => chunkPercent_mono _ hij, chunkPercent_last _ hn⟩
  rw [uploadFileInChunks, chunkLoop_progressValues r size _ _ _ hnone,
    List.range_eq_range']

/-- Witness for C7 at a 12 MiB file against an all-accepting remote. -/
theorem C7_progress_percentages_witness :
    progressValues (uploadFileInChunks allOkRemote 12582912).1 =
      (List.range (totalChunksOf 12582912)).map (chunkPercent (totalChunksOf 12582912)) :=
  (C7_progress_percentages allOkRemote 12582912 (by decide) (fun j hj => rfl)).1

/-- C8: chunk requests are submitted sequentially in increasing index order:
the first request (if any) is for chunk 0, and each consecutive pair of
requests is either an immediate retry of the same index or the step to the
next index — so no index recurs except as an immediate retry and the
distinct indices appear strictly increasing. -/
theorem C8_sequential_order (r : Remote) (size : Nat) :
    (reqIndices (uploadFileInChunks r size).1 = [] ∨
      (reqIndices (uploadFileInChunks r size).1).head? = some 0) ∧
    List.Chain' (fun a b => b = a ∨ b = a + 1)
      (reqIndices (uploadFileInChunks r size).1) := by
  constructor
  · rcases Nat.eq_zero_or_pos (totalChunksOf size) with hN | hN
    · left
      rw [uploadFileInChunks, hN]
      simp [chunkLoop, reqIndices]
    · right
      rw [uploadFileInChunks]
      obtain ⟨m, hm⟩ : ∃ m, totalChunksOf size = m + 1 :=
        ⟨totalChunksOf size - 1, by omega⟩
      rw [hm]
      exact chunkLoop_reqIndices_head r size (m + 1) 0 m
  · exact chunkLoop_chain r size (totalChunksOf size) (totalChunksOf size) 0

/-- C2 counterexample: two uploads of the same two-chunk file whose chunk
endpoint fails all three attempts at chunk 0 (`envFailAt0`) respectively at
chunk 1 (`envFailAt1`, chunk 0 succeeding) issue different request
sequences but surface the very same outcome — the error carries only
`lastError`, not the failed chunk index. -/
theorem C2_error_lacks_chunk_index :
    reqIndices (onSubmit envFailAt0).1 = [0, 0, 0] ∧
    reqIndices (onSubmit envFailAt1).1 = [0, 1, 1, 1] ∧
    (onSubmit envFailAt0).2 = (onSubmit envFailAt1).2 ∧
    (onSubmit envFailAt0).2 =
      Outcome.failed "Chunk upload failed: network down" := by
  refine ⟨by decide, by decide, by decide, by decide⟩

/-- C2 amended: when all 3 attempts of chunk `fIdx` fail (every earlier
chunk being acknowledged), the upload aborts with the thrown error
`Chunk upload failed: <lastError>` — which carries the last error but not
the chunk index — no chunk request is issued for any index beyond `fIdx`,
and no finalize request is issued. -/
theorem C2_chunk_abort (env : SubmitEnv) (f : FileVal) (fIdx : Nat)
    (hu : ¬ env.userId = "")
    (hf : fileAndName env.selectedType env.data = Except.ok f)
    (hlt : fIdx < totalChunksOf f.size)
    (hpre : ∀ j, j < fIdx → chunkSucceeds env.remote j = true)
    (hfail : ∀ a, 1 ≤ a → a ≤ 3 → env.remote.chunkOk fIdx a = false) :
    (onSubmit env).2 =
      Outcome.failed ("Chunk upload failed: " ++ env.remote.chunkErrText fIdx 3) ∧
    (∀ e ∈ (onSubmit env).1, ∀ i a s en, e = Event.chunkReq i a s en → i ≤ fIdx) ∧
    (∀ b, Event.finalizeReq b ∉ (onSubmit env).1) := by
  have habort := chunkLoop_abort env.remote f.size (totalChunksOf f.size)
    (totalChunksOf f.size) 0 fIdx (by omega) (by omega)
    (fun j h1 h2 => hpre j h2)
    (fun k hk => hfail (1 + k) (by omega) (by omega))
  have hsub := onSubmit_chunk_fail env f _ hu hf habort.1
  refine ⟨?_, ?_, ?_⟩
  · rw [hsub]
  · intro e he i a s en hee
    rw [hsub, hee] at he
    simp only [List.mem_cons, List.mem_append] at he
    rcases he with (he | he) | he
    · cases he
    · exact habort.2 _ he i a s en rfl
    · simp [failEvents] at he
  · intro b hb
    rw [hsub] at hb
    simp only [List.mem_cons, List.mem_append] at hb
    rcases hb with (hb | hb) | hb
    · cases hb
    · exact chunkLoop_no_finalize env.remote f.size _ _ _ b hb
    · simp [failEvents] at hb

/-- Witness for the amended C2 at `envFailAt0`. -/
theorem C2_chunk_abort_witness :
    (onSubmit envFailAt0).2 =
      Outcome.failed ("Chunk upload failed: " ++ failAllRemote.chunkErrText 0 3) :=
  (C2_chunk_abort envFailAt0 twoChunkFile 0 (by decide) rfl (by decide)
    (fun j hj => absurd hj (by omega)) (fun a h1 h2 => rfl)).1

set_option maxRecDepth 40000 in
/-- C4 counterexample: in the one-chunk run `envHello` the progress callback
reports 100 (trace position 2) strictly before the finalize request (trace
position 3), refuting `100 only after finalize succeeds`; in the 200-chunk
run `envBig` it reports 100 (position 398) even before the request for the
last chunk (position 399), refuting `never before all chunks are
acknowledged`. -/
theorem C4_premature_hundred :
    List.take 4 (onSubmit envHello).1 =
      [Event.progress 5, Event.chunkReq 0 1 0 5, Event.progress 100,
       Event.finalizeReq (finalizeParams envHello "Greeting.txt" 1)] ∧
    List.take 2 (List.drop 398 (onSubmit envBig).1) =
      [Event.progress 100, Event.chunkReq 199 1 1043333120 1043333121] := by
  refine ⟨by decide, by decide⟩

/-- C4 amended: in every run whose chunks all acknowledge, the progress
callback reports 100 already at the acknowledgment of the last chunk —
strictly before the finalize request is issued — and for uploads of at most
199 chunks no chunk before the last can round to 100 (with 200 or more
chunks, rounding reports 100 one chunk early). -/
theorem C4_progress_timing (env : SubmitEnv) (f : FileVal)
    (hu : ¬ env.userId = "")
    (hf : fileAndName env.selectedType env.data = Except.ok f)
    (hn : 0 < totalChunksOf f.size)
    (hall : ∀ j, j < totalChunksOf f.size → chunkSucceeds env.remote j = true) :
    (∃ l1 l2, (onSubmit env).1 = l1 ++ Event.progress 100 :: l2 ∧
      ∃ b, Event.finalizeReq b ∈ l2) ∧
    (∀ n i, n ≤ 199 → i + 1 < n → chunkPercent n i < 100) := by
  refine ⟨?_, fun n i h1 h2 => chunkPercent_lt_100 h1 h2⟩
  have hnone := chunkLoop_success env.remote f.size (totalChunksOf f.size)
    (totalChunksOf f.size) 0 (fun j h1 h2 => hall j (by omega))
  obtain ⟨l, hl⟩ := chunkLoop_last_progress env.remote f.size (totalChunksOf f.size)
    (totalChunksOf f.size) 0 hn hnone
  have hlast : chunkPercent (totalChunksOf f.size) (0 + totalChunksOf f.size - 1) = 100 := by
    rw [show 0 + totalChunksOf f.size - 1 = totalChunksOf f.size - 1 by omega]
    exact chunkPercent_last _ hn
  rw [onSubmit_chunks_ok env f hu hf hnone]
  by_cases hfin : env.remote.finalizeOk = true
  · rw [if_pos hfin]
    refine ⟨Event.progress 5 :: l,
      [Event.finalizeReq (finalizeParams env f.name (totalChunksOf f.size)),
       Event.progress 100,
       Event.notify "Success" "Content uploaded successfully!" "success"], ?_, ?_⟩
    · rw [hl, hlast]
      simp
    · exact ⟨finalizeParams env f.name (totalChunksOf f.size), by simp⟩
  · rw [if_neg hfin]
    refine ⟨Event.progress 5 :: l,
      Event.finalizeReq (finalizeParams env f.name (totalChunksOf f.size)) ::
        failEvents (finalizeErrMsg env.remote.finalizeDetail env.remote.finalizeBody),
      ?_, ?_⟩
    · rw [hl, hlast]
      simp
    · exact ⟨finalizeParams env f.name (totalChunksOf f.size), by simp⟩

/-- Witness for the amended C4 at `envHello`. -/
theorem C4_progress_timing_witness :
    ∃ l1 l2, (onSubmit envHello).1 = l1 ++ Event.progress 100 :: l2 ∧
      ∃ b, Event.finalizeReq b ∈ l2 :=
  (C4_progress_timing envHello ⟨"Greeting.txt", 5⟩ (by decide) (by rfl) (by decide)
    (fun j hj => rfl)).1

/-- C5 counterexample: the run `envHello` — whose description is empty, the
form's default — issues exactly one finalize body, and that body has no
`description` field at all (while carrying e.g. `title`), so the finalize
request does not carry all metadata fields. -/
theorem C5_missing_description :
    (finalizeBodies (onSubmit envHello).1).map (List.lookup "description") = [none] ∧
    (finalizeBodies (onSubmit envHello).1).map (List.lookup "title") =
      [some "Greeting"] := by
  refine ⟨by decide, by decide⟩

/-- C5 amended: after all chunks are acknowledged, exactly one finalize
request is issued; its URL-encoded body carries `upload_uuid`,
`total_chunks`, `filename`, `title`, `category_id`, `user_id`, `media_type`,
`release_rights`, `language`, and `use_uid_filename`, while `description` is
carried only when it is non-empty. -/
theorem C5_finalize_body (env : SubmitEnv) (f : FileVal)
    (hu : ¬ env.userId = "")
    (hf : fileAndName env.selectedType env.data = Except.ok f)
    (hall : ∀ j, j < totalChunksOf f.size → chunkSucceeds env.remote j = true) :
    countFinalize (onSubmit env).1 = 1 ∧
    (∀ b, Event.finalizeReq b ∈ (onSubmit env).1 →
      b.lookup "upload_uuid" = some env.uploadUuid ∧
      b.lookup "total_chunks" = some (toString (totalChunksOf f.size)) ∧
      b.lookup "filename" = some f.name ∧
      b.lookup "title" = some env.data.title ∧
      b.lookup "category_id" = some "833299f6-ff1c-4fde-804f-6d3b3877c76e" ∧
      b.lookup "user_id" = some env.userId ∧
      b.lookup "media_type" = some (mediaTypeStr env.selectedType) ∧
      b.lookup "release_rights" = some "creator" ∧
      b.lookup "language" = some env.data.language ∧
      b.lookup "use_uid_filename" = some "false" ∧
      b.lookup "description" =
        (if env.data.description = "" then none else some env.data.description)) := by
  have hnone := chunkLoop_success env.remote f.size (totalChunksOf f.size)
    (totalChunksOf f.size) 0 (fun j h1 h2 => hall j (by omega))
  have hcount := chunkLoop_countFinalize env.remote f.size (totalChunksOf f.size)
    (totalChunksOf f.size) 0
  have hnofin := fun b => chunkLoop_no_finalize env.remote f.size (totalChunksOf f.size)
    (totalChunksOf f.size) 0 b
  have hbody : ∀ b, b = finalizeParams env f.name (totalChunksOf f.size) →
      b.lookup "upload_uuid" = some env.uploadUuid ∧
      b.lookup "total_chunks" = some (toString (totalChunksOf f.size)) ∧
      b.lookup "filename" = some f.name ∧
      b.lookup "title" = some env.data.title ∧
      b.lookup "category_id" = some "833299f6-ff1c-4fde-804f-6d3b3877c76e" ∧
      b.lookup "user_id" = some env.userId ∧
      b.lookup "media_type" = some (mediaTypeStr env.selectedType) ∧
      b.lookup "release_rights" = some "creator" ∧
      b.lookup "language" = some env.data.language ∧
      b.lookup "use_uid_filename" = some "false" ∧
      b.lookup "description" =
        (if env.data.description = "" then none else some env.data.description) := by
    intro b hb
    subst hb
    by_cases hd : env.data.description = "" <;>
      simp [finalizeParams, List.lookup, hd]
  rw [onSubmit_chunks_ok env f hu hf hnone]
  by_cases hfin : env.remote.finalizeOk = true
  · rw [if_pos hfin]
    dsimp only
    constructor
    · rw [countFinalize_append, countFinalize_cons_progress, hcount,
        countFinalize_cons_fin, countFinalize_cons_progress,
        countFinalize_cons_notify, countFinalize_nil]
    · intro b hb
      rcases List.mem_append.mp hb with hb | hb
      · rcases List.mem_cons.mp hb with hb | hb
        · cases hb
        · exact absurd hb (hnofin b)
      · rcases List.mem_cons.mp hb with hb | hb
        · injection hb with hb
          exact hbody b hb
        · rcases List.mem_cons.mp hb with hb | hb
          · cases hb
          · rcases List.mem_cons.mp hb with hb | hb
            · cases hb
            · cases hb
  · rw [if_neg hfin]
    dsimp only
    constructor
    · rw [countFinalize_append, countFinalize_cons_progress, hcount,
        countFinalize_cons_fin, countFinalize_failEvents]
    · intro b hb
      rcases List.mem_append.mp hb with hb | hb
      · rcases List.mem_cons.mp hb with hb | hb
        · cases hb
        · exact absurd hb (hnofin b)
      · rcases List.mem_cons.mp hb with hb | hb
        · injection hb with hb
          exact hbody b hb
        · rw [failEvents] at hb
          rcases List.mem_cons.mp hb with hb | hb
          · cases hb
          · rcases List.mem_cons.mp hb with hb | hb
            · cases hb
            · cases hb

/-- Witness for the amended C5 at `envHello`. -/
theorem C5_finalize_body_witness :
    countFinalize (onSubmit envHello).1 = 1 :=
  (C5_finalize_body envHello ⟨"Greeting.txt", 5⟩ (by decide) (by rfl)
    (fun j hj => rfl)).1

/-- C6 counterexample: two successful uploads (`envRecA`, `envRecB`) that
differ only in the record identifier the remote assigns in the finalize
response body produce bit-identical traces and outcomes — the identifier
cannot be (and is not) returned to the caller. -/
theorem C6_no_record_id :
    onSubmit envRecA = onSubmit envRecB ∧
    recARemote.finalizeBody ≠ recBRemote.finalizeBody := by
  refine ⟨by decide, by decide⟩

/-- C6 amended: on finalize success the run reports completion — progress
100 followed by the success notification — and completes, but the finalize
response body (which is what carries the identifier the remote assigns to
the new record) is discarded without being read: the run's entire result is
independent of it, and no record identifier is returned. -/
theorem C6_finalize_success (env : SubmitEnv) (f : FileVal)
    (hu : ¬ env.userId = "")
    (hf : fileAndName env.selectedType env.data = Except.ok f)
    (hall : ∀ j, j < totalChunksOf f.size → chunkSucceeds env.remote j = true)
    (hfin : env.remote.finalizeOk = true) :
    (onSubmit env).2 = Outcome.completed ∧
    (∃ l, (onSubmit env).1 =
      l ++ [Event.progress 100,
        Event.notify "Success" "Content uploaded successfully!" "success"]) ∧
    (∀ bodyText detail,
      onSubmit ⟨env.userId, env.selectedType, env.data,
        ⟨env.remote.chunkOk, env.remote.chunkErrText, env.remote.finalizeOk,
         detail, bodyText⟩, env.uploadUuid⟩ = onSubmit env) := by
  have hnone := chunkLoop_success env.remote f.size (totalChunksOf f.size)
    (totalChunksOf f.size) 0 (fun j h1 h2 => hall j (by omega))
  refine ⟨?_, ?_, ?_⟩
  · rw [onSubmit_chunks_ok env f hu hf hnone, if_pos hfin]
  · rw [onSubmit_chunks_ok env f hu hf hnone, if_pos hfin]
    refine ⟨Event.progress 5 ::
      (chunkLoop env.remote f.size (totalChunksOf f.size) 0 (totalChunksOf f.size)).1 ++
      [Event.finalizeReq (finalizeParams env f.name (totalChunksOf f.size))], ?_⟩
    rw [List.append_assoc]
    rfl
  · intro bodyText detail
    have hcl := chunkLoop_congr
      ⟨env.remote.chunkOk, env.remote.chunkErrText, env.remote.finalizeOk, detail, bodyText⟩
      env.remote rfl rfl f.size (totalChunksOf f.size) (totalChunksOf f.size) 0
    have hnone2 : (chunkLoop (⟨env.remote.chunkOk, env.remote.chunkErrText,
        env.remote.finalizeOk, detail, bodyText⟩ : Remote) f.size (totalChunksOf f.size) 0
        (totalChunksOf f.size)).2 = none := by
      rw [hcl]
      exact hnone
    rw [onSubmit_chunks_ok ⟨env.userId, env.selectedType, env.data,
        ⟨env.remote.chunkOk, env.remote.chunkErrText, env.remote.finalizeOk,
         detail, bodyText⟩, env.uploadUuid⟩ f hu hf hnone2,
      onSubmit_chunks_ok env f hu hf hnone, if_pos hfin, if_pos hfin, hcl]
    rfl

/-- Witness for the amended C6 at `envRecA`. -/
theorem C6_finalize_success_witness :
    (onSubmit envRecA).2 = Outcome.completed :=
  (C6_finalize_success envRecA ⟨"Greeting.txt", 5⟩ (by decide) (by rfl)
    (fun j hj => rfl) rfl).1

/-- C9: a text upload with empty (or whitespace-only) content fails with
the `No text content provided.` error before any network request; a
non-text upload with no selected file fails with `No file selected.` before
any network request; and non-empty text content `hello` with title
`Greeting` is wrapped into the synthetic file `Greeting.txt` of 5 bytes,
giving `totalChunks = 1`. -/
theorem C9_invalid_input (env : SubmitEnv)
    (hu : ¬ env.userId = "") :
    (env.selectedType = UploadType.text → jsTrim env.data.content = "" →
      (onSubmit env).2 = Outcome.failed "No text content provided." ∧
      (onSubmit env).1.filter isNetworkEvent = []) ∧
    (env.selectedType ≠ UploadType.text → env.data.file = none →
      (onSubmit env).2 = Outcome.failed "No file selected." ∧
      (onSubmit env).1.filter isNetworkEvent = []) ∧
    (env.selectedType = UploadType.text → env.data.title = "Greeting" →
      env.data.content = "hello" →
      fileAndName env.selectedType env.data = Except.ok ⟨"Greeting.txt", 5⟩ ∧
      totalChunksOf 5 = 1) := by
  refine ⟨?_, ?_, ?_⟩
  · intro hty hc
    have hfa : fileAndName env.selectedType env.data =
        Except.error "No text content provided." := by
      rw [hty]
      simp [fileAndName, hc]
    rw [onSubmit_input_error env _ hu hfa]
    exact ⟨rfl, by simp [failEvents, isNetworkEvent]⟩
  · intro hty hfile
    have hfa : fileAndName env.selectedType env.data =
        Except.error "No file selected." := by
      cases h : env.selectedType with
      | text => exact absurd h hty
      | audio => simp [fileAndName, hfile]
      | video => simp [fileAndName, hfile]
      | image => simp [fileAndName, hfile]
    rw [onSubmit_input_error env _ hu hfa]
    exact ⟨rfl, by simp [failEvents, isNetworkEvent]⟩
  · intro hty htitle hcontent
    constructor
    · rw [hty]
      simp only [fileAndName]
      rw [hcontent, htitle]
      rfl
    · rfl

/-- Witness for C9: whitespace-only text, missing file, and the `hello` /
`Greeting` example. -/
theorem C9_invalid_input_witness :
    ((onSubmit envEmptyText).2 = Outcome.failed "No text content provided." ∧
      (onSubmit envEmptyText).1.filter isNetworkEvent = []) ∧
    ((onSubmit envNoFile).2 = Outcome.failed "No file selected." ∧
      (onSubmit envNoFile).1.filter isNetworkEvent = []) ∧
    (fileAndName envHello.selectedType envHello.data = Except.ok ⟨"Greeting.txt", 5⟩ ∧
      totalChunksOf 5 = 1) :=
  ⟨(C9_invalid_input envEmptyText (by decide)).1 rfl (by decide),
   (C9_invalid_input envNoFile (by decide)).2.1 (by decide) rfl,
   (C9_invalid_input envHello (by decide)).2.2 rfl rfl rfl⟩

/-- C10: when the finalize request returns a non-success response whose
body parses as JSON `\x7bdetail: string\x7d`, the error surfaced to the
caller carries the raw response body text, not the extracted `detail`
field: the `throw` of the detail-based error inside the `try` is itself
caught by the surrounding `catch`, which rethrows the raw text. -/
theorem C10_finalize_error_raw (env : SubmitEnv) (f : FileVal) (d : String)
    (hu : ¬ env.userId = "")
    (hf : fileAndName env.selectedType env.data = Except.ok f)
    (hall : ∀ j, j < totalChunksOf f.size → chunkSucceeds env.remote j = true)
    (hfin : env.remote.finalizeOk = false)
    (hdet : env.remote.finalizeDetail = some d)
    (hne : env.remote.finalizeBody ≠ "") :
    (onSubmit env).2 = Outcome.failed env.remote.finalizeBody ∧
    (env.remote.finalizeBody ≠ d → (onSubmit env).2 ≠ Outcome.failed d) := by
  have hnone := chunkLoop_success env.remote f.size (totalChunksOf f.size)
    (totalChunksOf f.size) 0 (fun j h1 h2 => hall j (by omega))
  have hmsg : finalizeErrMsg env.remote.finalizeDetail env.remote.finalizeBody =
      env.remote.finalizeBody := by
    rw [hdet]
    simp [finalizeErrMsg, hne]
  have houtcome : (onSubmit env).2 = Outcome.failed env.remote.finalizeBody := by
    rw [onSubmit_chunks_ok env f hu hf hnone, if_neg (by simp [hfin]), hmsg]
  refine ⟨houtcome, ?_⟩
  intro hnd hcon
  rw [houtcome] at hcon
  injection hcon with hcon
  exact hnd hcon

/-- Witness for C10 at `envFinalizeFails`, whose finalize error body is the
JSON object with `detail` field `Invalid metadata`. -/
theorem C10_finalize_error_raw_witness :
    (onSubmit envFinalizeFails).2 =
      Outcome.failed finalizeRejectsRemote.finalizeBody :=
  (C10_finalize_error_raw envFinalizeFails ⟨"Greeting.txt", 5⟩ "Invalid metadata"
    (by decide) (by rfl) (fun j hj => rfl) rfl rfl (by decide)).1

end VantalaVaani
